import Mathlib

/-!
Verification development for the scalable-coherent-path-tracing repository.

The GPU kernels and host code are shallowly embedded over exact rationals:
float values become `ℚ`, 32-bit packed RGBA texels become `ℕ` (reduced
modulo `2^32` where the C code wraps), textures and flat buffers become
functions `ℕ → ℕ` / `ℕ → ℚ`, and the hardware ray-intersection oracle
`trace(origin, dir, tmin, tmax)` becomes an explicit list of candidate
intersections from which the closest one inside `[tmin, tmax]` is selected.
-/

/-- Three-component vector over `ℚ`, embedding `glm::vec3` / `float3`. -/
structure Vec3 where
  x : ℚ
  y : ℚ
  z : ℚ
deriving DecidableEq, Repr

/-- Two-component vector over `ℚ`, embedding `glm::vec2` / `float2`. -/
structure Vec2 where
  x : ℚ
  y : ℚ
deriving DecidableEq, Repr

instance : Zero Vec3 := ⟨⟨0, 0, 0⟩⟩

instance : Add Vec3 := ⟨fun a b => ⟨a.x + b.x, a.y + b.y, a.z + b.z⟩⟩

instance : SMul ℚ Vec3 := ⟨fun q v => ⟨q * v.x, q * v.y, q * v.z⟩⟩

/-- Componentwise product, embedding `glm::vec3 * glm::vec3` (used by
`totalRadiance *= diffuseColor`). -/
def vmul (a b : Vec3) : Vec3 := ⟨a.x * b.x, a.y * b.y, a.z * b.z⟩

/-- Accumulating sum of a list of vectors, exactly the `+=` loop
accumulator pattern of the kernels. -/
def vsum (l : List Vec3) : Vec3 := l.foldl (· + ·) 0

/-- The float constant `PI` of the device programs
(`#define PI 3.14159265358979323846f`), as an exact rational. -/
def PI : ℚ := 3.14159265358979323846

/-- C-style cast of a floating value to an integer: truncation toward zero
(`int(x)`). -/
def cTrunc (q : ℚ) : ℤ := if 0 ≤ q then Int.floor q else -(Int.floor (-q))

/-- Reduction of a C integer to its 32-bit unsigned bit pattern
(two's complement). -/
def u32ofInt (i : ℤ) : ℕ := (Int.emod i 4294967296).toNat

/-- The RGBA packing used throughout the repository:
`0xff000000 | (r << 0) | (g << 8) | (b << 16)` on 32-bit lanes. -/
def rgbaPack (r g b : ℤ) : ℕ :=
  (0xff000000 |||
    ((u32ofInt r <<< 0) % 4294967296) |||
    ((u32ofInt g <<< 8) % 4294967296) |||
    ((u32ofInt b <<< 16) % 4294967296)) % 4294967296

/-! ## Direct lighting pass (`__raygen__renderFrame__direct__lighting` and
its closest-hit / miss programs). -/

/-- Per-ray data written by `__miss__radiance__direct__lighting`: the
sentinel texture coordinate `(-1, -1)`. -/
def missDirectLighting : Vec2 := ⟨-1, -1⟩

/-- Result of tracing one direct-lighting ray: on a hit the closest-hit
program stores the interpolated texture coordinate of the intersection in
the per-ray data; on a miss the miss program stores the sentinel. The
geometric intersection itself is the external ray-tracing oracle, so it is
passed in as `sceneHit`. -/
def traceDirectLighting (sceneHit : Option Vec2) : Vec2 :=
  match sceneHit with
  | some tc => tc
  | none => missDirectLighting

/-- The packed 32-bit light contribution computed in the raygen program:
`int(255.99f * power)` per channel, packed as RGBA. -/
def lightContributionRGBA (power : Vec3) : ℕ :=
  rgbaPack (cTrunc (255.99 * power.x)) (cTrunc (255.99 * power.y))
    (cTrunc (255.99 * power.z))

/-- The texel index computed in the raygen program:
`uint32_t(rayTexCoordPRD.x + rayTexCoordPRD.y * size)`. -/
def directLightingTexelIndex (tc : Vec2) (texSize : ℕ) : ℕ :=
  u32ofInt (cTrunc (tc.x + tc.y * (texSize : ℚ)))

/-- One iteration of the sample loop of
`__raygen__renderFrame__direct__lighting`: trace the ray, and when the
returned texture coordinate is not the miss sentinel, store the packed
light contribution into the direct-lighting texture at the hit texel. -/
def directRayStep (power : Vec3) (texSize : ℕ) (sceneHit : Option Vec2)
    (tex : ℕ → ℕ) : ℕ → ℕ :=
  let prd := traceDirectLighting sceneHit
  if prd.x ≠ -1 ∧ prd.y ≠ -1 then
    let rgba := lightContributionRGBA power
    let uvIndex := directLightingTexelIndex prd texSize
    fun i => if i = uvIndex then rgba else tex i
  else tex

/-- Definition following the spec's words for the direct pass: the light's
contribution is *accumulated* (added) into the direct-lighting texture at
the hit texel. -/
def specDirectRayStepAccum (power : Vec3) (texSize : ℕ)
    (sceneHit : Option Vec2) (tex : ℕ → ℕ) : ℕ → ℕ :=
  let prd := traceDirectLighting sceneHit
  if prd.x ≠ -1 ∧ prd.y ≠ -1 then
    let rgba := lightContributionRGBA power
    let uvIndex := directLightingTexelIndex prd texSize
    fun i => if i = uvIndex then tex i + rgba else tex i
  else tex

/-! ## Cubemap gather pass (`__raygen__renderFrame__cell__gathering` and
its closest-hit / miss programs). -/

/-- Radiance stored by `__miss__radiance__cell__gathering` into the
per-ray data: black `(0,0,0)`. -/
def missGatherRadiance : Vec3 := ⟨0, 0, 0⟩

/-- Result of tracing one cubemap-gather ray: on a hit, the closest-hit
program stores the rgb value read from the light-source texture at the
intersection; on a miss, the miss program stores black. The geometric
intersection is the external ray-tracing oracle, passed in as
`sceneHit`. -/
def traceGather (sceneHit : Option Vec3) : Vec3 :=
  match sceneHit with
  | some c => c
  | none => missGatherRadiance

/-- The 32-bit value written by the gather raygen program:
`int` casts of the per-ray radiance, packed as RGBA. -/
def gatherTexelValue (sceneHit : Option Vec3) : ℕ :=
  let c := traceGather sceneHit
  rgbaPack (cTrunc c.x) (cTrunc c.y) (cTrunc c.z)

/-- The flat cubemap buffer index written by the gather raygen program:
`(probeOffset + faceIndex * res * res) + (vPixel * res + uPixel)`. -/
def gatherWriteIndex (probeOffset res uPixel vPixel faceIndex : ℕ) : ℕ :=
  (probeOffset + faceIndex * (res * res)) + (vPixel * res + uPixel)

/-- One thread of the cubemap gather launch: the value written for launch
indices `(uPixel, vPixel, faceIndex)` under the intersection oracle. -/
def gatherPassValue (oracle : ℕ → ℕ → ℕ → Option Vec3)
    (uPixel vPixel faceIndex : ℕ) : ℕ :=
  gatherTexelValue (oracle uPixel vPixel faceIndex)

/-! ## Octree save / load (`OctreeBuilder::saveOctreeToFile` and the
load-from-file constructor `OctreeBuilder(std::string loadOctreePath)`). -/

/-- Conversion of a numeric file entry back to a count, used when parsing
the header. -/
def qToNat (q : ℚ) : ℕ := q.num.toNat

/-- Modelled from the spec: the bodies of `OctreeBuilder::saveOctreeToFile`
and of the load-from-file constructor are not under `src/`
(`octree_builder.hpp` only declares them). Per the spec the GPU octree is
a flat numeric array with a header encoding the max depth and the
per-axis indirection-grid resolution, followed by the serialized traversal
array. -/
structure GpuOctree where
  maxDepth : ℕ
  dimX : ℕ
  dimY : ℕ
  dimZ : ℕ
  data : List ℚ
deriving DecidableEq, Repr

/-- Modelled from the spec: `saveOctreeToFile` writes the header (max
depth, per-axis indirection-grid resolution) followed by the flat
traversal array, as one flat numeric file. -/
def saveOctreeToFile (t : GpuOctree) : List ℚ :=
  (t.maxDepth : ℚ) :: (t.dimX : ℚ) :: (t.dimY : ℚ) :: (t.dimZ : ℚ) :: t.data

/-- Modelled from the spec: loading parses the header then takes the rest
of the file as the flat `gpuOctree` array. -/
def loadOctreeFromFile (f : List ℚ) : Option GpuOctree :=
  match f with
  | d :: x :: y :: z :: rest => some ⟨qToNat d, qToNat x, qToNat y, qToNat z, rest⟩
  | _ => none

/-! ## SH weights text file (`Renderer::writeWeightsToTxtFile`). -/

/-- `SPHERICAL_HARMONIC_BASIS_FUNCTIONS` from `renderer.cpp`. -/
def SPHERICAL_HARMONIC_BASIS_FUNCTIONS : ℕ := 9

/-- The normalization weight computed per (cell, sub-probe) in
`writeWeightsToTxtFile`: `1 / (numSamples * 4π)` when the sub-probe has a
positive sample count, `0` otherwise. -/
def shFileWeight (numSamples : ℕ → ℤ) (i sh : ℕ) : ℚ :=
  if 0 < numSamples (i * 8 + sh) then
    1 / ((numSamples (i * 8 + sh) : ℚ) * 4 * PI)
  else 0

/-- One output line of the weights file: the 9 coefficients of sub-probe
`sh` of cell `i`, each multiplied by the normalization weight. -/
def shFileLine (weights : ℕ → ℚ) (numSamples : ℕ → ℤ) (i sh : ℕ) : List ℚ :=
  (List.range 9).map fun bf =>
    weights (i * 8 * SPHERICAL_HARMONIC_BASIS_FUNCTIONS +
      sh * SPHERICAL_HARMONIC_BASIS_FUNCTIONS + bf) * shFileWeight numSamples i sh

/-- The weights text file produced by `Renderer::writeWeightsToTxtFile`,
one line per (cell, sub-probe) pair, cells outermost, each line holding
the 9 weight-normalized coefficient values of that sub-probe. -/
def writeWeightsToTxtFile (weights : ℕ → ℚ) (numSamples : ℕ → ℤ)
    (amountCells : ℕ) : List (List ℚ) :=
  (List.range amountCells).flatMap fun i =>
    (List.range 8).map fun sh => shFileLine weights numSamples i sh

/-! ## Per-thread random sequence seeding in the Scatter passes
(`unsigned int seed = tea<4>(uvIndex, nonEmptyCellIndex);` followed by
`rnd(seed)` calls). -/

/-- `NUM_SAMPLES_HEMISPHERE` of the hybrid scatter kernel. -/
def NUM_SAMPLES_HEMISPHERE : ℕ := 10

/-- Modelled from the spec: the body of `tea<4>` lives in `random.hpp`,
which is not under `src/`; the spec requires the seed to be derived
deterministically from the (texel/launch index, cell index) pair with
sequences independent across distinct pairs, so the hash is modelled as an
injective pairing of its two arguments. -/
def tea4 (val0 val1 : ℕ) : ℕ := Nat.pair val0 val1

/-- Modelled from the spec: the body of `rnd` lives in `random.hpp`,
which is not under `src/`; the spec requires a per-thread pseudo-random
sequence advanced deterministically from the seed, modelled as a
linear-congruential step returning a value in `[0, 1)`. -/
def rndStep (seed : ℕ) : ℕ × ℚ :=
  let s := (1664525 * seed + 1013904223) % 4294967296
  (s, (s : ℚ) / 4294967296)

/-- The sequence of `(rnd(seed), rnd(seed))` pairs drawn by the sample
loop: two draws per hemisphere sample. -/
def samplePairs : ℕ → ℕ → List (ℚ × ℚ)
  | 0, _ => []
  | n + 1, seed =>
    let r1 := rndStep seed
    let r2 := rndStep r1.1
    (r1.2, r2.2) :: samplePairs n r2.1

/-- The launch-parameter fields visible to a hybrid scatter thread that
could in principle influence its random sequence. -/
structure ScatterLaunchIndexing where
  uvIndex : ℕ
  nonEmptyCellIndex : ℕ
  cubeMapResolution : ℕ
  probeWidthRes : ℕ
  probeHeightRes : ℕ
deriving DecidableEq, Repr

/-- The scatter kernels' seed:
`unsigned int seed = tea<4>(uvIndex, nonEmptyCellIndex);`. -/
def scatterSeed (p : ScatterLaunchIndexing) : ℕ :=
  tea4 p.uvIndex p.nonEmptyCellIndex

/-- The random pairs drawn by one hybrid scatter thread. -/
def scatterDirectionRandoms (p : ScatterLaunchIndexing) : List (ℚ × ℚ) :=
  samplePairs NUM_SAMPLES_HEMISPHERE (scatterSeed p)

/-! ## Scatter passes (`unbiasedScatteringOctree.cu`): the hybrid cubemap
kernel `__raygen__renderFrame__cell__scattering` and the unbiased kernel
`__raygen__renderFrame__cell__scattering__unbiased`. -/

/-- One candidate intersection of a ray with scene geometry: the ray
parameter `t` of the intersection and the radiance the closest-hit program
would read at the hit point (from the previous bounce texture / octree). -/
structure Hit where
  t : ℚ
  radiance : Vec3
deriving DecidableEq, Repr

/-- The closest intersection inside the `[tmin, tmax]` interval of an
`optixTrace` call — the external ray-intersection oracle of the spec,
`trace(origin, direction, tMin, tMax) → hit record | miss`. -/
def closestHit (tmin tmax : ℚ) (hits : List Hit) : Option Hit :=
  (hits.filter fun h => decide (tmin ≤ h.t ∧ h.t ≤ tmax)).foldl
    (fun acc h =>
      match acc with
      | none => some h
      | some g => if h.t < g.t then some h else some g)
    none

/-- Per-ray data of the hybrid scatter kernel
(`RadianceCellScatterPRDHybrid`): an explicit hit-found flag plus the
radiance read at the hit. -/
structure HybridPayload where
  hitFound : ℕ
  resultColor : Vec3
deriving DecidableEq, Repr

/-- `TRACING_RANGE` of the hybrid scatter kernel (`#define TRACING_RANGE
0.0f`), passed to `optixTrace` as `tmax`. -/
def TRACING_RANGE : ℚ := 0.0

/-- One `optixTrace` of the hybrid scatter kernel with `tmin = 0` and the
given `tmax`: when an intersection inside the range exists,
`__closesthit__radiance__cell__scattering__scene` sets the hit-found flag
to `1` and stores the radiance read at the hit; otherwise
`__miss__radiance__cell__scattering` does nothing, leaving the payload
registers as initialized by the raygen program. -/
def traceHybrid (tmax : ℚ) (hits : List Hit) (init : HybridPayload) :
    HybridPayload :=
  match closestHit 0 tmax hits with
  | some h => { hitFound := 1, resultColor := h.radiance }
  | none => init

/-- The per-sample data of one hemisphere sample of the hybrid scatter
kernel: the cosine factor `dot(randomDir, normalize(uvNormal))`, the
candidate intersections along the sampled direction, the (uninitialized)
payload color registers, and the cubemap probe radiance that
`convert_xyz_to_cube_uv` + `tex2D` would return for this direction. -/
structure HybridSample where
  cosContribution : ℚ
  sceneHits : List Hit
  junk : Vec3
  probeValue : Vec3
deriving DecidableEq, Repr

/-- One iteration of the hemisphere-sample loop of
`__raygen__renderFrame__cell__scattering`: trace with the given tracing
range, then take the traced contribution when the payload's hit-found flag
is `1` and the probe contribution otherwise, cosine-weighted either way. -/
def hybridSampleEval (tmax : ℚ) (s : HybridSample) : Vec3 :=
  let pay := traceHybrid tmax s.sceneHits ⟨0, s.junk⟩
  if pay.hitFound = 1 then s.cosContribution • pay.resultColor
  else s.cosContribution • s.probeValue

/-- The hemisphere-sample loop as launched by the kernel, whose trace call
passes `TRACING_RANGE` as `tmax`. -/
def hybridKernelSampleEval (s : HybridSample) : Vec3 :=
  hybridSampleEval TRACING_RANGE s

/-- The value written by `__raygen__renderFrame__cell__scattering` to the
current bounce texture: the accumulated cosine-weighted sample
contributions, multiplied componentwise by the diffuse color, each channel
divided by `NUM_SAMPLES_HEMISPHERE * 2 * PI`. -/
def hybridScatterResult (samples : List HybridSample) (diffuseColor : Vec3) :
    Vec3 :=
  let totalRadiance :=
    samples.foldl (fun acc s => acc + hybridKernelSampleEval s) 0
  let weighted := vmul totalRadiance diffuseColor
  ⟨weighted.x / ((NUM_SAMPLES_HEMISPHERE : ℚ) * 2 * PI),
    weighted.y / ((NUM_SAMPLES_HEMISPHERE : ℚ) * 2 * PI),
    weighted.z / ((NUM_SAMPLES_HEMISPHERE : ℚ) * 2 * PI)⟩

/-- Definition following the spec's words for the scatter write: all
sample contributions summed, multiplied by the local diffuse albedo, and
normalized by `1 / (numSamples * 2π)`. -/
def specScatterValue (contribs : List Vec3) (albedo : Vec3) : Vec3 :=
  let s := vmul (vsum contribs) albedo
  ⟨s.x * (1 / ((contribs.length : ℚ) * 2 * PI)),
    s.y * (1 / ((contribs.length : ℚ) * 2 * PI)),
    s.z * (1 / ((contribs.length : ℚ) * 2 * PI))⟩

/-- `NUM_DIRECTION_SAMPLES` of the unbiased scatter kernel. -/
def NUM_DIRECTION_SAMPLES : ℕ := 100

/-- One `optixTrace` of the unbiased scatter kernel (`tmin = 0`,
`tmax = 1e20`): on a hit the closest-hit program stores the octree
radiance read at the hit point; on a miss
`__miss__radiance__cell__scattering__unbiased` stores `(0,0,0)`. -/
def traceUnbiased (hits : List Hit) (init : Vec3) : Vec3 :=
  match closestHit 0 (10 ^ 20) hits with
  | some h => h.radiance
  | none => ⟨0, 0, 0⟩

/-- Per-sample data of the unbiased scatter kernel: cosine factor,
candidate intersections and the uninitialized payload registers. -/
structure UnbiasedSample where
  cosContribution : ℚ
  sceneHits : List Hit
  junk : Vec3
deriving DecidableEq, Repr

/-- One iteration of the direction-sample loop of
`__raygen__renderFrame__cell__scattering__unbiased`. -/
def unbiasedSampleEval (s : UnbiasedSample) : Vec3 :=
  s.cosContribution • traceUnbiased s.sceneHits s.junk

/-- The value written by `__raygen__renderFrame__cell__scattering__unbiased`
to the current bounce octree texture: the accumulated cosine-weighted
contributions, each channel divided by `numSamples * PI` — with no diffuse
albedo factor (`numSamples` counts the loop iterations). -/
def unbiasedScatterResult (samples : List UnbiasedSample) : Vec3 :=
  let totalRadiance :=
    samples.foldl (fun acc s => acc + unbiasedSampleEval s) 0
  let numSamples : ℕ := samples.length
  ⟨totalRadiance.x / ((numSamples : ℚ) * PI),
    totalRadiance.y / ((numSamples : ℚ) * PI),
    totalRadiance.z / ((numSamples : ℚ) * PI)⟩

/-! ## UV-to-world projection (`Renderer::UVto3D` and `Renderer::area`). -/

/-- Signed barycentric area of a UV triangle: `Renderer::area`,
`(v1.x * v2.y - v1.y * v2.x) / 2` with `v1 = a - c`, `v2 = b - c`. -/
def area (a b c : Vec2) : ℚ :=
  ((a.x - c.x) * (b.y - c.y) - (a.y - c.y) * (b.x - c.x)) / 2

/-- One triangle of a mesh: its three vertices' UV coordinates,
object-space positions and normals. -/
structure Tri where
  uv1 : Vec2
  uv2 : Vec2
  uv3 : Vec2
  v1 : Vec3
  v2 : Vec3
  v3 : Vec3
  n1 : Vec3
  n2 : Vec3
  n3 : Vec3
deriving DecidableEq, Repr

/-- A game object: its mesh triangles in index order, and its
object-to-world transform (`worldTransform.object2World * vec4(p, 1)`)
applied to positions. -/
structure GameObj where
  tris : List Tri
  object2World : Vec3 → Vec3

/-- The per-texel record produced by the projection: world position and
world normal (`UVWorldData`). -/
structure UVWorldData where
  worldPosition : Vec3
  worldNormal : Vec3
deriving DecidableEq, Repr

/-- The barycentric point-in-triangle test of `UVto3D` on one triangle:
`continue` on zero total area, `continue` when any barycentric coordinate
is negative, otherwise the three barycentric coordinates. -/
def triMatch (uv : Vec2) (t : Tri) : Option (ℚ × ℚ × ℚ) :=
  let a := area t.uv1 t.uv2 t.uv3
  if a = 0 then none
  else
    let a1 := area t.uv2 t.uv3 uv / a
    if a1 < 0 then none
    else
      let a2 := area t.uv3 t.uv1 uv / a
      if a2 < 0 then none
      else
        let a3 := area t.uv1 t.uv2 uv / a
        if a3 < 0 then none
        else some (a1, a2, a3)

/-- The value returned by `UVto3D` for a matched triangle: barycentric
interpolation of the positions, transformed to world space, and of the
normals, normalized. Normalization of a vector involves an irrational
square root, so the floating-point `glm::normalize` is abstracted as the
function parameter `nrm`. -/
def interpTri (nrm : Vec3 → Vec3) (g : GameObj) (t : Tri)
    (a1 a2 a3 : ℚ) : UVWorldData :=
  { worldPosition := g.object2World (a1 • t.v1 + a2 • t.v2 + a3 • t.v3),
    worldNormal := nrm (a1 • t.n1 + a2 • t.n2 + a3 • t.n3) }

/-- The inner loop of `UVto3D` over the triangles of one game object. -/
def UVto3Dtris (nrm : Vec3 → Vec3) (g : GameObj) (uv : Vec2) :
    List Tri → Option UVWorldData
  | [] => none
  | t :: ts =>
    match triMatch uv t with
    | some a => some (interpTri nrm g t a.1 a.2.1 a.2.2)
    | none => UVto3Dtris nrm g uv ts

/-- The fallback record returned when no triangle contains the UV
coordinate. -/
def sentinelUVWorldData : UVWorldData :=
  ⟨⟨-1000, -1000, -1000⟩, ⟨-1000, -1000, -1000⟩⟩

/-- `Renderer::UVto3D`: loop over game objects, inside each over its
triangles, returning at the first triangle whose barycentric test
succeeds, else the sentinel record. -/
def UVto3D (nrm : Vec3 → Vec3) : List GameObj → Vec2 → UVWorldData
  | [], _ => sentinelUVWorldData
  | g :: gs, uv =>
    match UVto3Dtris nrm g uv g.tris with
    | some r => r
    | none => UVto3D nrm gs uv

/-- All (game object, triangle) pairs of the scene in game-object-then
triangle-index order. -/
def allTriangles (objs : List GameObj) : List (GameObj × Tri) :=
  objs.flatMap fun g => g.tris.map fun t => (g, t)

/-- The first entry of the list whose triangle passes the barycentric
test, together with its interpolated record. -/
def firstTriangleMatch (nrm : Vec3 → Vec3) (uv : Vec2) :
    List (GameObj × Tri) → Option UVWorldData
  | [] => none
  | gt :: rest =>
    match triMatch uv gt.2 with
    | some a => some (interpTri nrm gt.1 gt.2 a.1 a.2.1 a.2.2)
    | none => firstTriangleMatch nrm uv rest

/-- Definition following the spec's words: the interpolated world position
and normal of the first triangle, in game-object then index order, whose
barycentric point-in-triangle test succeeds (zero-area triangles never
match); the sentinel when none does. -/
def specUVto3D (nrm : Vec3 → Vec3) (objs : List GameObj) (uv : Vec2) :
    UVWorldData :=
  (firstTriangleMatch nrm uv (allTriangles objs)).getD sentinelUVWorldData

/-! ## Theorems -/

/-- C2 counterexample: at light power `(1,1,1)`, a hit at texture
coordinate `(1/2, 0)` and a previous texel value of `7`, the kernel's
write differs from the spec's accumulate-into-texture step: the code
overwrites the texel with the packed contribution instead of adding it. -/
theorem directRayStep_ne_accum :
    directRayStep ⟨1, 1, 1⟩ 1024 (some ⟨1/2, 0⟩) (fun _ => 7) 0 ≠
      specDirectRayStepAccum ⟨1, 1, 1⟩ 1024 (some ⟨1/2, 0⟩) (fun _ => 7) 0 := by
  have h0 : cTrunc ((1 : ℚ) / 2) = 0 := by norm_num [cTrunc]
  have h255 : cTrunc ((25599 : ℚ) / 100) = 255 := by norm_num [cTrunc]
  have hL : directRayStep ⟨1, 1, 1⟩ 1024 (some ⟨1/2, 0⟩) (fun _ => 7) 0 =
      4294967295 := by
    norm_num [directRayStep, traceDirectLighting, missDirectLighting,
      directLightingTexelIndex, lightContributionRGBA, rgbaPack, u32ofInt,
      h0, h255]
    decide
  have hR : specDirectRayStepAccum ⟨1, 1, 1⟩ 1024 (some ⟨1/2, 0⟩)
      (fun _ => 7) 0 = 7 + 4294967295 := by
    norm_num [specDirectRayStepAccum, traceDirectLighting, missDirectLighting,
      directLightingTexelIndex, lightContributionRGBA, rgbaPack, u32ofInt,
      h0, h255]
    decide
  rw [hL, hR]
  norm_num

/-- C2 (amended): for every ray that hits geometry (texture coordinate
different from the miss sentinel in both components), the kernel writes
the packed light contribution to the hit texel, *replacing* the texel's
previous value, and leaves every other texel unchanged. -/
theorem directRayStep_overwrites (power : Vec3) (texSize : ℕ) (tc : Vec2)
    (tex : ℕ → ℕ) (hx : tc.x ≠ -1) (hy : tc.y ≠ -1) :
    directRayStep power texSize (some tc) tex
        (directLightingTexelIndex tc texSize) = lightContributionRGBA power ∧
      ∀ j, j ≠ directLightingTexelIndex tc texSize →
        directRayStep power texSize (some tc) tex j = tex j := by
  constructor
  · simp [directRayStep, traceDirectLighting, hx, hy]
  · intro j hj
    simp [directRayStep, traceDirectLighting, hx, hy, hj]

/-- Witness for `directRayStep_overwrites` at a concrete input. -/
theorem directRayStep_overwrites_witness :
    directRayStep ⟨1, 0, 0⟩ 4 (some ⟨1/2, 1⟩) (fun _ => 3)
        (directLightingTexelIndex ⟨1/2, 1⟩ 4) = lightContributionRGBA ⟨1, 0, 0⟩ ∧
      ∀ j, j ≠ directLightingTexelIndex ⟨1/2, 1⟩ 4 →
        directRayStep ⟨1, 0, 0⟩ 4 (some ⟨1/2, 1⟩) (fun _ => 3) j = 3 :=
  directRayStep_overwrites ⟨1, 0, 0⟩ 4 ⟨1/2, 1⟩ (fun _ => 3)
    (by norm_num) (by norm_num)

/-- C6: a direct-lighting ray that misses all geometry (the miss program
stores the sentinel `(-1,-1)` into the per-ray data) makes no write: the
direct-lighting texture is returned unchanged. -/
theorem directRayStep_miss_unchanged (power : Vec3) (texSize : ℕ)
    (tex : ℕ → ℕ) :
    traceDirectLighting none = ⟨-1, -1⟩ ∧
      directRayStep power texSize none tex = tex := by
  constructor
  · rfl
  · simp [directRayStep, traceDirectLighting, missDirectLighting]

/-- C7: in a cubemap gather pass over a scene in which every traced ray
misses, every cubemap texel written is the miss value black: the miss
program yields radiance `(0,0,0)` and the stored 32-bit texel equals
opaque black `0xff000000` for all `(face, u, v)`. -/
theorem gatherPass_all_miss_black (oracle : ℕ → ℕ → ℕ → Option Vec3)
    (hmiss : ∀ u v f, oracle u v f = none) :
    traceGather none = ⟨0, 0, 0⟩ ∧
      ∀ u v f, gatherPassValue oracle u v f = 0xff000000 := by
  constructor
  · rfl
  · intro u v f
    have h0 : cTrunc (0 : ℚ) = 0 := by norm_num [cTrunc]
    rw [gatherPassValue, hmiss]
    norm_num [gatherTexelValue, traceGather, missGatherRadiance, rgbaPack,
      u32ofInt, h0]

/-- Witness for `gatherPass_all_miss_black` at the constantly-missing
oracle and a concrete launch index. -/
theorem gatherPass_all_miss_black_witness :
    traceGather none = ⟨0, 0, 0⟩ ∧
      ∀ u v f, gatherPassValue (fun _ _ _ => none) u v f = 0xff000000 :=
  gatherPass_all_miss_black (fun _ _ _ => none) (fun _ _ _ => rfl)

/-- C4: saving a built octree to a file and loading it back yields a flat
`gpuOctree` array identical to the original: `load (save t) = t`. -/
theorem loadOctree_saveOctree (t : GpuOctree) :
    loadOctreeFromFile (saveOctreeToFile t) = some t := by
  simp [loadOctreeFromFile, saveOctreeToFile, qToNat]

/-- Closed form of the file as a single indexed list, used to reason about
line positions. -/
theorem writeWeights_eq_map_range (weights : ℕ → ℚ) (numSamples : ℕ → ℤ) :
    ∀ amountCells, writeWeightsToTxtFile weights numSamples amountCells =
      (List.range (amountCells * 8)).map fun k =>
        shFileLine weights numSamples (k / 8) (k % 8) := by
  intro n
  induction n with
  | zero => simp [writeWeightsToTxtFile]
  | succ m ih =>
    have hsplit : writeWeightsToTxtFile weights numSamples (m + 1) =
        writeWeightsToTxtFile weights numSamples m ++
          (List.range 8).map fun sh => shFileLine weights numSamples m sh := by
      simp [writeWeightsToTxtFile, List.range_succ]
    rw [hsplit, ih, Nat.succ_mul, List.range_add, List.map_append, List.map_map]
    congr 1
    apply List.map_congr_left
    intro x hx
    have hx8 : x < 8 := List.mem_range.mp hx
    have hdiv : (m * 8 + x) / 8 = m := by omega
    have hmod : (m * 8 + x) % 8 = x := by omega
    simp [Function.comp, hdiv, hmod]

/-- C8: the weights text file contains exactly one line per
(cell, sub-probe) pair, laid out cell-major then sub-probe; the line of
(cell `i`, sub-probe `sh`) sits at position `i * 8 + sh`, holds exactly 9
coefficients, each equal to the raw SH coefficient multiplied by the
normalization weight `1 / (numSamples * 4π)`; a sub-probe with no samples
gets weight `0` and a zero-filled line. -/
theorem writeWeights_file_layout (weights : ℕ → ℚ) (numSamples : ℕ → ℤ)
    (amountCells : ℕ) :
    (writeWeightsToTxtFile weights numSamples amountCells).length =
        amountCells * 8 ∧
      (∀ i sh, i < amountCells → sh < 8 →
        (writeWeightsToTxtFile weights numSamples amountCells)[i * 8 + sh]? =
          some (shFileLine weights numSamples i sh)) ∧
      (∀ i sh, (shFileLine weights numSamples i sh).length = 9) ∧
      (∀ i sh bf, bf < 9 →
        (shFileLine weights numSamples i sh)[bf]? =
          some (weights (i * 8 * 9 + sh * 9 + bf) *
            shFileWeight numSamples i sh)) ∧
      (∀ i sh, 0 < numSamples (i * 8 + sh) →
        shFileWeight numSamples i sh =
          1 / ((numSamples (i * 8 + sh) : ℚ) * 4 * PI)) ∧
      (∀ i sh, numSamples (i * 8 + sh) ≤ 0 →
        shFileLine weights numSamples i sh = List.replicate 9 0) := by
  refine ⟨?_, ?_, ?_, ?_, ?_, ?_⟩
  · rw [writeWeights_eq_map_range]
    simp
  · intro i sh hi hsh
    rw [writeWeights_eq_map_range]
    have hlt : i * 8 + sh < amountCells * 8 := by omega
    have hdiv : (i * 8 + sh) / 8 = i := by omega
    have hmod : (i * 8 + sh) % 8 = sh := by omega
    simp [List.getElem?_range, hlt, hdiv, hmod]
  · intro i sh
    simp [shFileLine]
  · intro i sh bf hbf
    simp [shFileLine, SPHERICAL_HARMONIC_BASIS_FUNCTIONS,
      List.getElem?_range, hbf]
  · intro i sh h
    simp [shFileWeight, h]
  · intro i sh h
    have hneg : ¬ 0 < numSamples (i * 8 + sh) := by omega
    simp [shFileLine, shFileWeight, hneg, List.map_const']

/-- Witness for `writeWeights_file_layout` at a concrete input: two cells
whose sample counters are all zero. -/
theorem writeWeights_file_layout_witness :
    (writeWeightsToTxtFile (fun k => (k : ℚ)) (fun _ => 0) 2).length = 2 * 8 ∧
      (writeWeightsToTxtFile (fun k => (k : ℚ)) (fun _ => 0) 2)[1 * 8 + 1]? =
        some (shFileLine (fun k => (k : ℚ)) (fun _ => 0) 1 1) ∧
      shFileLine (fun k => (k : ℚ)) (fun _ => 0) 1 1 = List.replicate 9 0 :=
  ⟨(writeWeights_file_layout (fun k => (k : ℚ)) (fun _ => 0) 2).1,
    (writeWeights_file_layout (fun k => (k : ℚ)) (fun _ => 0) 2).2.1 1 1
      (by norm_num) (by norm_num),
    (writeWeights_file_layout (fun k => (k : ℚ)) (fun _ => 0) 2).2.2.2.2.2 1 1
      (by norm_num)⟩

/-- C5: the pseudo-random sequence of a scatter thread is seeded from the
(texel/launch index, non-empty-cell index) pair only — two threads (or two
runs) agreeing on that pair draw identical sequences whatever the other
launch parameters are — and threads with different pairs obtain different
seeds, hence independent sequence generators. -/
theorem scatterSeed_deterministic_and_pairwise_distinct :
    (∀ p q : ScatterLaunchIndexing, p.uvIndex = q.uvIndex →
      p.nonEmptyCellIndex = q.nonEmptyCellIndex →
      scatterDirectionRandoms p = scatterDirectionRandoms q) ∧
      (∀ p q : ScatterLaunchIndexing,
        p.uvIndex ≠ q.uvIndex ∨ p.nonEmptyCellIndex ≠ q.nonEmptyCellIndex →
        scatterSeed p ≠ scatterSeed q) := by
  constructor
  · intro p q h1 h2
    unfold scatterDirectionRandoms scatterSeed tea4
    rw [h1, h2]
  · intro p q h hEq
    have := Nat.pair_eq_pair.mp hEq
    rcases h with h | h
    · exact h this.1
    · exact h this.2

/-- Witness for `scatterSeed_deterministic_and_pairwise_distinct` at
concrete launch parameters. -/
theorem scatterSeed_deterministic_witness :
    scatterDirectionRandoms ⟨1, 2, 128, 4, 4⟩ =
        scatterDirectionRandoms ⟨1, 2, 64, 8, 8⟩ ∧
      scatterSeed ⟨1, 2, 128, 4, 4⟩ ≠ scatterSeed ⟨3, 2, 128, 4, 4⟩ :=
  ⟨scatterSeed_deterministic_and_pairwise_distinct.1 ⟨1, 2, 128, 4, 4⟩
      ⟨1, 2, 64, 8, 8⟩ rfl rfl,
    scatterSeed_deterministic_and_pairwise_distinct.2 ⟨1, 2, 128, 4, 4⟩
      ⟨3, 2, 128, 4, 4⟩ (Or.inl (by norm_num))⟩

/-- Componentwise unfolding of vector addition. -/
theorem Vec3.add_def (a b : Vec3) :
    a + b = ⟨a.x + b.x, a.y + b.y, a.z + b.z⟩ := rfl

/-- Componentwise unfolding of scalar multiplication. -/
theorem Vec3.smul_def (q : ℚ) (v : Vec3) :
    q • v = ⟨q * v.x, q * v.y, q * v.z⟩ := rfl

/-- Componentwise unfolding of the zero vector. -/
theorem Vec3.zero_def : (0 : Vec3) = ⟨0, 0, 0⟩ := rfl

/-- An accumulating fold over `n` copies of the same vector adds `n` times
that vector to the initial accumulator. -/
theorem foldl_add_replicate (v : Vec3) :
    ∀ (n : ℕ) (init : Vec3),
      (List.replicate n v).foldl (· + ·) init = init + (n : ℚ) • v := by
  intro n
  induction n with
  | zero =>
    intro init
    simp [Vec3.smul_def, Vec3.add_def]
  | succ m ih =>
    intro init
    rw [List.replicate_succ, List.foldl_cons, ih]
    cases init with
    | mk ix iy iz =>
      cases v with
      | mk vx vy vz =>
        simp only [Vec3.add_def, Vec3.smul_def, Vec3.mk.injEq]
        push_cast
        refine ⟨by ring, by ring, by ring⟩

/-- The sum of `n` copies of a vector. -/
theorem vsum_replicate (n : ℕ) (v : Vec3) :
    vsum (List.replicate n v) = (n : ℚ) • v := by
  rw [vsum, foldl_add_replicate]
  cases v with
  | mk vx vy vz =>
    simp [Vec3.zero_def, Vec3.add_def, Vec3.smul_def]

/-- The closest hit among a single candidate intersection that lies inside
the tracing interval is that intersection. -/
theorem closestHit_singleton_inRange (tmin tmax : ℚ) (h : Hit)
    (h1 : tmin ≤ h.t) (h2 : h.t ≤ tmax) :
    closestHit tmin tmax [h] = some h := by
  simp [closestHit, List.filter, h1, h2]

/-- C1 counterexample: the unbiased scatter kernel run on
`NUM_DIRECTION_SAMPLES = 100` samples, each with cosine factor `1` and a
single intersection at `t = 1` whose stored radiance is `(1,1,1)`, writes
a value different from "sum of contributions, multiplied by the (here
white) diffuse albedo, normalized by `1 / (numSamples * 2π)`": the kernel
divides by `numSamples * π` and applies no albedo factor. -/
theorem unbiasedScatter_ne_specScatterValue :
    unbiasedScatterResult
        (List.replicate 100 ⟨1, [⟨1, ⟨1, 1, 1⟩⟩], ⟨5, 5, 5⟩⟩) ≠
      specScatterValue
        ((List.replicate 100
          (⟨1, [⟨1, ⟨1, 1, 1⟩⟩], ⟨5, 5, 5⟩⟩ : UnbiasedSample)).map
            unbiasedSampleEval) ⟨1, 1, 1⟩ := by
  have heval : unbiasedSampleEval ⟨1, [⟨1, ⟨1, 1, 1⟩⟩], ⟨5, 5, 5⟩⟩ =
      ⟨1, 1, 1⟩ := by
    have hc : closestHit 0 (10 ^ 20) [(⟨1, ⟨1, 1, 1⟩⟩ : Hit)] =
        some ⟨1, ⟨1, 1, 1⟩⟩ :=
      closestHit_singleton_inRange 0 (10 ^ 20) ⟨1, ⟨1, 1, 1⟩⟩ (by norm_num)
        (by norm_num)
    simp [unbiasedSampleEval, traceUnbiased, hc, Vec3.smul_def]
  have hfold : (List.replicate 100
      (⟨1, [⟨1, ⟨1, 1, 1⟩⟩], ⟨5, 5, 5⟩⟩ : UnbiasedSample)).foldl
        (fun acc s => acc + unbiasedSampleEval s) 0 = ⟨100, 100, 100⟩ := by
    rw [show (fun (acc : Vec3) (s : UnbiasedSample) =>
        acc + unbiasedSampleEval s) = fun acc s =>
          (· + ·) acc (unbiasedSampleEval s) from rfl,
      ← List.foldl_map, List.map_replicate, heval, foldl_add_replicate]
    simp [Vec3.zero_def, Vec3.add_def, Vec3.smul_def]
  have hvsum : vsum ((List.replicate 100
      (⟨1, [⟨1, ⟨1, 1, 1⟩⟩], ⟨5, 5, 5⟩⟩ : UnbiasedSample)).map
        unbiasedSampleEval) = ⟨100, 100, 100⟩ := by
    rw [List.map_replicate, heval, vsum_replicate]
    simp [Vec3.smul_def]
  have hL : unbiasedScatterResult
      (List.replicate 100 ⟨1, [⟨1, ⟨1, 1, 1⟩⟩], ⟨5, 5, 5⟩⟩) =
      ⟨100 / (100 * PI), 100 / (100 * PI), 100 / (100 * PI)⟩ := by
    rw [unbiasedScatterResult]
    rw [hfold]
    simp
  have hR : specScatterValue ((List.replicate 100
      (⟨1, [⟨1, ⟨1, 1, 1⟩⟩], ⟨5, 5, 5⟩⟩ : UnbiasedSample)).map
        unbiasedSampleEval) ⟨1, 1, 1⟩ =
      ⟨100 * (1 / (100 * 2 * PI)), 100 * (1 / (100 * 2 * PI)),
        100 * (1 / (100 * 2 * PI))⟩ := by
    rw [specScatterValue, hvsum]
    simp [vmul]
  rw [hL, hR]
  intro hcontra
  have hx := congrArg Vec3.x hcontra
  rw [PI] at hx
  norm_num at hx

/-- C1 (amended): the hybrid cubemap scatter kernel writes the sum of the
per-sample contributions, multiplied by the local diffuse albedo and
normalized by `1 / (numSamples * 2π)`; the unbiased scatter kernel instead
normalizes by `1 / (numSamples * π)` and applies no albedo factor. -/
theorem scatterResult_normalization :
    (∀ (samples : List HybridSample) (albedo : Vec3),
      samples.length = NUM_SAMPLES_HEMISPHERE →
      hybridScatterResult samples albedo =
        specScatterValue (samples.map hybridKernelSampleEval) albedo) ∧
      (∀ samples : List UnbiasedSample,
        unbiasedScatterResult samples =
          ⟨(vsum (samples.map unbiasedSampleEval)).x /
              ((samples.length : ℚ) * PI),
            (vsum (samples.map unbiasedSampleEval)).y /
              ((samples.length : ℚ) * PI),
            (vsum (samples.map unbiasedSampleEval)).z /
              ((samples.length : ℚ) * PI)⟩) := by
  constructor
  · intro samples albedo h
    rw [hybridScatterResult, specScatterValue]
    rw [show (fun (acc : Vec3) (s : HybridSample) =>
        acc + hybridKernelSampleEval s) = fun acc s =>
          (· + ·) acc (hybridKernelSampleEval s) from rfl,
      ← List.foldl_map, ← vsum]
    rw [List.length_map, h]
    simp only [specScatterValue, Vec3.mk.injEq]
    refine ⟨by ring, by ring, by ring⟩
  · intro samples
    rw [unbiasedScatterResult]
    rw [show (fun (acc : Vec3) (s : UnbiasedSample) =>
        acc + unbiasedSampleEval s) = fun acc s =>
          (· + ·) acc (unbiasedSampleEval s) from rfl,
      ← List.foldl_map, ← vsum]

/-- Witness for `scatterResult_normalization` at a concrete input: ten
identical probe-only samples and a gray albedo. -/
theorem scatterResult_normalization_witness :
    hybridScatterResult
        (List.replicate 10 ⟨1, [], ⟨0, 0, 0⟩, ⟨2, 2, 2⟩⟩) ⟨1/2, 1/2, 1/2⟩ =
      specScatterValue
        ((List.replicate 10
          (⟨1, [], ⟨0, 0, 0⟩, ⟨2, 2, 2⟩⟩ : HybridSample)).map
            hybridKernelSampleEval) ⟨1/2, 1/2, 1/2⟩ :=
  scatterResult_normalization.1
    (List.replicate 10 ⟨1, [], ⟨0, 0, 0⟩, ⟨2, 2, 2⟩⟩) ⟨1/2, 1/2, 1/2⟩
    (by simp [NUM_SAMPLES_HEMISPHERE])

/-- C3: in the hybrid scatter pass the choice between the traced
contribution and the probe fallback is decided solely by the explicit
hit-found flag carried in the per-ray payload — set to `1` by the
closest-hit program exactly when the trace found an intersection in range,
left `0` otherwise — and the chosen contribution never depends on the hit
distance: two traces whose closest hits return the same radiance at
different distances yield the same sample contribution. -/
theorem hybridScatter_hitFlag_decides :
    (∀ (tmax : ℚ) (hits : List Hit) (c : Vec3),
      ((traceHybrid tmax hits ⟨0, c⟩).hitFound = 1 ↔
        closestHit 0 tmax hits ≠ none) ∧
        (closestHit 0 tmax hits = none →
          (traceHybrid tmax hits ⟨0, c⟩).hitFound = 0)) ∧
      (∀ (tmax : ℚ) (s : HybridSample),
        hybridSampleEval tmax s =
          if (traceHybrid tmax s.sceneHits ⟨0, s.junk⟩).hitFound = 1 then
            s.cosContribution •
              (traceHybrid tmax s.sceneHits ⟨0, s.junk⟩).resultColor
          else s.cosContribution • s.probeValue) ∧
      (∀ (tmax t1 t2 cw : ℚ) (c junk probe : Vec3),
        0 ≤ t1 → t1 ≤ tmax → 0 ≤ t2 → t2 ≤ tmax →
        hybridSampleEval tmax ⟨cw, [⟨t1, c⟩], junk, probe⟩ =
          hybridSampleEval tmax ⟨cw, [⟨t2, c⟩], junk, probe⟩) := by
  refine ⟨?_, ?_, ?_⟩
  · intro tmax hits c
    cases hch : closestHit 0 tmax hits with
    | none => simp [traceHybrid, hch]
    | some h => simp [traceHybrid, hch]
  · intro tmax s
    rfl
  · intro tmax t1 t2 cw c junk probe ha1 hb1 ha2 hb2
    have hc1 : closestHit 0 tmax [(⟨t1, c⟩ : Hit)] = some ⟨t1, c⟩ :=
      closestHit_singleton_inRange 0 tmax ⟨t1, c⟩ ha1 hb1
    have hc2 : closestHit 0 tmax [(⟨t2, c⟩ : Hit)] = some ⟨t2, c⟩ :=
      closestHit_singleton_inRange 0 tmax ⟨t2, c⟩ ha2 hb2
    simp [hybridSampleEval, traceHybrid, hc1, hc2]

/-- Witness for `hybridScatter_hitFlag_decides` at concrete inputs: a
tracing range of `5`, the same stored radiance at distances `1` and `2`. -/
theorem hybridScatter_hitFlag_decides_witness :
    hybridSampleEval 5 ⟨3, [⟨1, ⟨2, 0, 0⟩⟩], ⟨9, 9, 9⟩, ⟨7, 7, 7⟩⟩ =
      hybridSampleEval 5 ⟨3, [⟨2, ⟨2, 0, 0⟩⟩], ⟨9, 9, 9⟩, ⟨7, 7, 7⟩⟩ :=
  hybridScatter_hitFlag_decides.2.2 5 1 2 3 ⟨2, 0, 0⟩ ⟨9, 9, 9⟩ ⟨7, 7, 7⟩
    (by norm_num) (by norm_num) (by norm_num) (by norm_num)

/-- C10: the hybrid scatter kernel passes the constant `TRACING_RANGE =
0.0` as `tmax` of the trace call, so for every hemisphere sample all of
whose candidate intersections lie at strictly positive ray parameter the
closest-hit program never runs: the hit-found flag stays `0` and the
sample's contribution always comes from the cell's cubemap probe. -/
theorem hybridScatter_zero_range_probe_only :
    TRACING_RANGE = 0 ∧
      ∀ s : HybridSample, (∀ h ∈ s.sceneHits, 0 < h.t) →
        (traceHybrid TRACING_RANGE s.sceneHits ⟨0, s.junk⟩).hitFound = 0 ∧
          hybridKernelSampleEval s = s.cosContribution • s.probeValue := by
  constructor
  · norm_num [TRACING_RANGE]
  · intro s hpos
    have hfilter : s.sceneHits.filter
        (fun h => decide ((0 : ℚ) ≤ h.t ∧ h.t ≤ TRACING_RANGE)) = [] := by
      rw [List.filter_eq_nil_iff]
      intro h hmem
      have hp := hpos h hmem
      simp only [decide_eq_true_eq, not_and, TRACING_RANGE]
      intro _ hle
      norm_num at hle
      linarith
    have hch : closestHit 0 TRACING_RANGE s.sceneHits = none := by
      rw [closestHit, hfilter]
      rfl
    constructor
    · simp [traceHybrid, hch]
    · simp [hybridKernelSampleEval, hybridSampleEval, traceHybrid, hch]

/-- Witness for `hybridScatter_zero_range_probe_only` at a concrete
sample with one intersection at distance `1`. -/
theorem hybridScatter_zero_range_probe_only_witness :
    (traceHybrid TRACING_RANGE
        ((⟨2, [⟨1, ⟨3, 3, 3⟩⟩], ⟨9, 9, 9⟩, ⟨5, 5, 5⟩⟩ :
          HybridSample).sceneHits)
        ⟨0, (⟨2, [⟨1, ⟨3, 3, 3⟩⟩], ⟨9, 9, 9⟩, ⟨5, 5, 5⟩⟩ :
          HybridSample).junk⟩).hitFound = 0 ∧
      hybridKernelSampleEval ⟨2, [⟨1, ⟨3, 3, 3⟩⟩], ⟨9, 9, 9⟩, ⟨5, 5, 5⟩⟩ =
        (2 : ℚ) • (⟨5, 5, 5⟩ : Vec3) :=
  hybridScatter_zero_range_probe_only.2
    ⟨2, [⟨1, ⟨3, 3, 3⟩⟩], ⟨9, 9, 9⟩, ⟨5, 5, 5⟩⟩
    (by
      intro h hmem
      rw [List.mem_singleton] at hmem
      subst hmem
      norm_num)

/-- First-match search distributes over list concatenation. -/
theorem firstTriangleMatch_append (nrm : Vec3 → Vec3) (uv : Vec2) :
    ∀ l1 l2, firstTriangleMatch nrm uv (l1 ++ l2) =
      match firstTriangleMatch nrm uv l1 with
      | some r => some r
      | none => firstTriangleMatch nrm uv l2 := by
  intro l1 l2
  induction l1 with
  | nil => simp [firstTriangleMatch]
  | cons gt rest ih =>
    rw [List.cons_append, firstTriangleMatch, firstTriangleMatch]
    cases triMatch uv gt.2 with
    | none => simpa using ih
    | some a => simp

/-- The inner triangle loop of `UVto3D` is the first-match search over
that object's triangles. -/
theorem UVto3Dtris_eq_firstMatch (nrm : Vec3 → Vec3) (g : GameObj)
    (uv : Vec2) : ∀ ts, UVto3Dtris nrm g uv ts =
      firstTriangleMatch nrm uv (ts.map fun t => (g, t)) := by
  intro ts
  induction ts with
  | nil => simp [UVto3Dtris, firstTriangleMatch]
  | cons t rest ih =>
    rw [List.map_cons, UVto3Dtris, firstTriangleMatch]
    cases triMatch uv t with
    | none => simpa using ih
    | some a => simp

/-- C9: `UVto3D` skips every triangle whose barycentric area is zero, and
for every UV coordinate returns the interpolated world position and normal
of the first triangle — in game-object then triangle-index order — whose
barycentric point-in-triangle test succeeds (the sentinel record when none
does). -/
theorem UVto3D_first_match (nrm : Vec3 → Vec3) :
    (∀ (uv : Vec2) (t : Tri), area t.uv1 t.uv2 t.uv3 = 0 →
      triMatch uv t = none) ∧
      ∀ (objs : List GameObj) (uv : Vec2),
        UVto3D nrm objs uv = specUVto3D nrm objs uv := by
  constructor
  · intro uv t h
    simp [triMatch, h]
  · intro objs uv
    induction objs with
    | nil => simp [UVto3D, specUVto3D, allTriangles, firstTriangleMatch]
    | cons g gs ih =>
      have hall : allTriangles (g :: gs) =
          (g.tris.map fun t => (g, t)) ++ allTriangles gs := by
        simp [allTriangles]
      rw [UVto3D, specUVto3D, hall, firstTriangleMatch_append,
        ← UVto3Dtris_eq_firstMatch]
      cases UVto3Dtris nrm g uv g.tris with
      | none => simpa [specUVto3D] using ih
      | some r => simp

/-- Witness for `UVto3D_first_match` at a concrete input: a degenerate
triangle (all UVs equal) followed by a matching triangle in a one-object
scene. -/
theorem UVto3D_first_match_witness :
    triMatch ⟨0, 0⟩
        ⟨⟨0, 0⟩, ⟨0, 0⟩, ⟨0, 0⟩, ⟨1, 1, 1⟩, ⟨2, 2, 2⟩, ⟨3, 3, 3⟩,
          ⟨1, 0, 0⟩, ⟨0, 1, 0⟩, ⟨0, 0, 1⟩⟩ = none ∧
      UVto3D id [⟨[⟨⟨0, 0⟩, ⟨1, 0⟩, ⟨0, 1⟩, ⟨1, 1, 1⟩, ⟨2, 2, 2⟩, ⟨3, 3, 3⟩,
          ⟨1, 0, 0⟩, ⟨0, 1, 0⟩, ⟨0, 0, 1⟩⟩], id⟩] ⟨0, 0⟩ =
        specUVto3D id [⟨[⟨⟨0, 0⟩, ⟨1, 0⟩, ⟨0, 1⟩, ⟨1, 1, 1⟩, ⟨2, 2, 2⟩,
          ⟨3, 3, 3⟩, ⟨1, 0, 0⟩, ⟨0, 1, 0⟩, ⟨0, 0, 1⟩⟩], id⟩] ⟨0, 0⟩ :=
  ⟨(UVto3D_first_match id).1 ⟨0, 0⟩
      ⟨⟨0, 0⟩, ⟨0, 0⟩, ⟨0, 0⟩, ⟨1, 1, 1⟩, ⟨2, 2, 2⟩, ⟨3, 3, 3⟩,
        ⟨1, 0, 0⟩, ⟨0, 1, 0⟩, ⟨0, 0, 1⟩⟩ (by norm_num [area]),
    (UVto3D_first_match id).2
      [⟨[⟨⟨0, 0⟩, ⟨1, 0⟩, ⟨0, 1⟩, ⟨1, 1, 1⟩, ⟨2, 2, 2⟩, ⟨3, 3, 3⟩,
        ⟨1, 0, 0⟩, ⟨0, 1, 0⟩, ⟨0, 0, 1⟩⟩], id⟩] ⟨0, 0⟩⟩
